import Mathlib

/-! Signed session identifiers (`servers/gateway/sessions/sessionid.go`)

A shallow embedding of the Go package `sessions`: `getSig`, `makeCryptoID`,
`NewSessionID`, `ValidateID` and `SessionID.String`, together with executable
models of the standard-library primitives they call
(`encoding/base64.URLEncoding`, `crypto/sha256`, `crypto/hmac`,
`crypto/rand.Read`, slice expressions and their run-time panics).

Go strings and byte slices are sequences of bytes; a byte is a `Fin 256`.
-/

namespace Sessions

/-- A Go `byte`. -/
abbrev Byte := Fin 256

/-- The bytes of an ASCII string literal of the source. -/
def ascii (s : String) : List Byte := s.toList.map (fun c => Fin.ofNat c.toNat)

/-! ## `encoding/base64`, `URLEncoding` (URL-safe alphabet, `=` padding, not strict) -/

/-- The URL-safe alphabet `encodeURL` of `encoding/base64`. -/
def encodeURL : List Byte :=
  ascii "ABCDEFGHIJKLMNOPQRSTUVWXYZabcdefghijklmnopqrstuvwxyz0123456789-_"

/-- The padding character `StdPadding`, `'='`. -/
def padChar : Byte := 61

/-- Line feed, skipped by the decoder. -/
def charLF : Byte := 10

/-- Carriage return, skipped by the decoder. -/
def charCR : Byte := 13

/-- `enc.encode[i]` for the URL encoding. -/
def encodeChar (i : Nat) : Byte := encodeURL.getD i 0

/-- `enc.decodeMap[c]`: the index of `c` in the alphabet, `0xff` when `c` is
not in the alphabet. -/
def decodeMap (c : Byte) : Nat :=
  if encodeURL.indexOf c < 64 then encodeURL.indexOf c else 0xff

/-- `Encoding.Encode` / `EncodeToString` of `base64.URLEncoding`: three input
bytes give four characters; a remainder of one or two bytes is padded with
`=`. -/
def EncodeToString : List Byte → List Byte
  | b0 :: b1 :: b2 :: rest =>
    let val := b0.val <<< 16 ||| b1.val <<< 8 ||| b2.val
    encodeChar (val >>> 18 &&& 0x3F) :: encodeChar (val >>> 12 &&& 0x3F) ::
      encodeChar (val >>> 6 &&& 0x3F) :: encodeChar (val &&& 0x3F) :: EncodeToString rest
  | [b0, b1] =>
    let val := b0.val <<< 16 ||| b1.val <<< 8
    [encodeChar (val >>> 18 &&& 0x3F), encodeChar (val >>> 12 &&& 0x3F),
      encodeChar (val >>> 6 &&& 0x3F), padChar]
  | [b0] =>
    let val := b0.val <<< 16
    [encodeChar (val >>> 18 &&& 0x3F), encodeChar (val >>> 12 &&& 0x3F), padChar, padChar]
  | [] => []

/-- The last step of `decodeQuantum`: the sextets read so far (`dlen` of them,
missing ones are zero) are packed into 24 bits and the first `dlen - 1` bytes
are written. -/
def quantumBytes (dbuf : List Nat) : List Byte :=
  let val := dbuf.getD 0 0 <<< 18 ||| dbuf.getD 1 0 <<< 12 ||| dbuf.getD 2 0 <<< 6 ||| dbuf.getD 3 0
  ([Fin.ofNat (val >>> 16), Fin.ofNat (val >>> 8), Fin.ofNat val] : List Byte).take (dbuf.length - 1)

/-- The loop `for si < len(src) && (src[si] == '\n' || src[si] == '\r') { si++ }`
of `decodeQuantum`: the unread input and the index reached. -/
def skipNewlines : List Byte → Nat → List Byte × Nat
  | [], si => ([], si)
  | c :: rest, si =>
    if c = charLF ∨ c = charCR then skipNewlines rest (si + 1) else (c :: rest, si)

/-- The padding branch of `decodeQuantum`, entered after a `=` was read with
`dbuf.length` sextets of the quantum present; `rest` is the input after that
`=` and `si` its index. The result is the bytes of the quantum and the
`CorruptInputError` offset, if any. -/
def decodePadding (dbuf : List Nat) (rest : List Byte) (si : Nat) : List Byte × Option Nat :=
  if dbuf.length < 2 then
    -- incorrect padding
    ([], some (si - 1))
  else
    let second : Nat ⊕ (List Byte × Nat) :=
      if dbuf.length = 2 then
        -- "==" is expected, the first "=" is already consumed
        match skipNewlines rest si with
        | ([], si2) => Sum.inl si2                       -- not enough padding
        | (c :: rest2, si2) =>
          if c ≠ padChar then Sum.inl (si2 - 1)          -- incorrect padding
          else Sum.inr (rest2, si2 + 1)
      else Sum.inr (rest, si)
    match second with
    | Sum.inl off => ([], some off)
    | Sum.inr (rest3, si3) =>
      match skipNewlines rest3 si3 with
      | ([], _) => (quantumBytes dbuf, none)
      | (_ :: _, si4) => (quantumBytes dbuf, some si4)   -- trailing garbage

/-- `Encoding.Decode` of `base64.URLEncoding`, as one pass over the input:
`si` is the index of the next character and `dbuf` the sextets of the
quantum being read (`j = dbuf.length`). Returns the decoded bytes (the `n`
bytes written) and the offset of the `CorruptInputError`, if any. The 8- and
4-character fast paths of the library decode the same quanta and are not
modelled separately. -/
def decodeLoop : List Byte → Nat → List Nat → List Byte × Option Nat
  | [], si, dbuf =>
    if dbuf.length = 0 then ([], none) else ([], some (si - dbuf.length))
  | c :: rest, si, dbuf =>
    if decodeMap c ≠ 0xff then
      if dbuf.length = 3 then
        let r := decodeLoop rest (si + 1) []
        (quantumBytes (dbuf ++ [decodeMap c]) ++ r.1, r.2)
      else decodeLoop rest (si + 1) (dbuf ++ [decodeMap c])
    else if c = charLF ∨ c = charCR then decodeLoop rest (si + 1) dbuf
    else if c ≠ padChar then ([], some si)
    else decodePadding dbuf rest (si + 1)

/-- `Encoding.DecodedLen` for a padded encoding. -/
def DecodedLen (n : Nat) : Nat := n / 4 * 3

/-- A Go byte slice: the `len` elements it holds and the rest of its backing
array up to its capacity. -/
structure Slice where
  /-- The elements `s[0], ..., s[len(s)-1]`. -/
  data : List Byte
  /-- The elements of the backing array between `len(s)` and `cap(s)`. -/
  spare : List Byte
  deriving DecidableEq, Repr

/-- `len(s)`. -/
def Slice.len (s : Slice) : Nat := s.data.length

/-- `cap(s)`. -/
def Slice.cap (s : Slice) : Nat := s.data.length + s.spare.length

/-- The slice expression `s[lo:hi]`: defined when `lo ≤ hi ≤ cap(s)`, a
run-time panic (`none`) otherwise. -/
def Slice.slice (s : Slice) (lo hi : Nat) : Option Slice :=
  if lo ≤ hi ∧ hi ≤ s.cap then
    some ⟨((s.data ++ s.spare).drop lo).take (hi - lo), (s.data ++ s.spare).drop hi⟩
  else none

/-- The slice expression `s[lo:]`, that is `s[lo:len(s)]`. -/
def Slice.sliceFrom (s : Slice) (lo : Nat) : Option Slice := s.slice lo s.len

/-- `Encoding.DecodeString`: the buffer `dbuf` has `DecodedLen(len(s))` zero
bytes, `Decode` writes `n` bytes into it and `dbuf[:n]` is returned together
with the `CorruptInputError` offset, if any. -/
def DecodeString (s : List Byte) : Slice × Option Nat :=
  let r := decodeLoop s 0 []
  (⟨r.1, List.replicate (DecodedLen s.length - r.1.length) 0⟩, r.2)

/-! ## `crypto/sha256` -/

/-- Addition of `uint32` values. -/
def add32 (a b : Nat) : Nat := (a + b) % 2 ^ 32

/-- `bits.RotateLeft32(x, -n)`: rotation to the right of a 32-bit word. -/
def rotr (x n : Nat) : Nat := (x >>> n ||| x <<< (32 - n)) % 2 ^ 32

/-- The round constants `_K` of SHA-256. -/
def K256 : List Nat :=
  [0x428a2f98, 0x71374491, 0xb5c0fbcf, 0xe9b5dba5, 0x3956c25b, 0x59f111f1, 0x923f82a4, 0xab1c5ed5,
   0xd807aa98, 0x12835b01, 0x243185be, 0x550c7dc3, 0x72be5d74, 0x80deb1fe, 0x9bdc06a7, 0xc19bf174,
   0xe49b69c1, 0xefbe4786, 0x0fc19dc6, 0x240ca1cc, 0x2de92c6f, 0x4a7484aa, 0x5cb0a9dc, 0x76f988da,
   0x983e5152, 0xa831c66d, 0xb00327c8, 0xbf597fc7, 0xc6e00bf3, 0xd5a79147, 0x06ca6351, 0x14292967,
   0x27b70a85, 0x2e1b2138, 0x4d2c6dfc, 0x53380d13, 0x650a7354, 0x766a0abb, 0x81c2c92e, 0x92722c85,
   0xa2bfe8a1, 0xa81a664b, 0xc24b8b70, 0xc76c51a3, 0xd192e819, 0xd6990624, 0xf40e3585, 0x106aa070,
   0x19a4c116, 0x1e376c08, 0x2748774c, 0x34b0bcb5, 0x391c0cb3, 0x4ed8aa4a, 0x5b9cca4f, 0x682e6ff3,
   0x748f82ee, 0x78a5636f, 0x84c87814, 0x8cc70208, 0x90befffa, 0xa4506ceb, 0xbef9a3f7, 0xc67178f2]

/-- The initial hash value of SHA-256. -/
def init256 : List Nat :=
  [0x6a09e667, 0xbb67ae85, 0x3c6ef372, 0xa54ff53a, 0x510e527f, 0x9b05688c, 0x1f83d9ab, 0x5be0cd19]

/-- The message schedule `w[0..63]` of one 64-byte block: sixteen big-endian
words of the block, then 48 words computed from earlier ones. -/
def schedule (p : List Byte) : List Nat :=
  let w16 := (List.range 16).map (fun i =>
    (p.getD (4 * i) 0).val <<< 24 ||| (p.getD (4 * i + 1) 0).val <<< 16 |||
      (p.getD (4 * i + 2) 0).val <<< 8 ||| (p.getD (4 * i + 3) 0).val)
  (List.range 48).foldl (fun w k =>
    let i := k + 16
    let v1 := w.getD (i - 2) 0
    let t1 := rotr v1 17 ^^^ rotr v1 19 ^^^ v1 >>> 10
    let v2 := w.getD (i - 15) 0
    let t2 := rotr v2 7 ^^^ rotr v2 18 ^^^ v2 >>> 3
    w ++ [add32 (add32 (add32 t1 (w.getD (i - 7) 0)) t2) (w.getD (i - 16) 0)]) w16

/-- One round of the compression function on the working variables
`[a, b, c, d, e, f, g, h]`. -/
def round256 (w : List Nat) (v : List Nat) (i : Nat) : List Nat :=
  let a := v.getD 0 0; let b := v.getD 1 0; let c := v.getD 2 0; let d := v.getD 3 0
  let e := v.getD 4 0; let f := v.getD 5 0; let g := v.getD 6 0; let h := v.getD 7 0
  let t1 := add32 (add32 (add32 (add32 h (rotr e 6 ^^^ rotr e 11 ^^^ rotr e 25))
    (e &&& f ^^^ (e ^^^ 0xffffffff) &&& g)) (K256.getD i 0)) (w.getD i 0)
  let t2 := add32 (rotr a 2 ^^^ rotr a 13 ^^^ rotr a 22) (a &&& b ^^^ a &&& c ^^^ b &&& c)
  [add32 t1 t2, a, b, c, add32 d t1, e, f, g]

/-- The body of `blockGeneric` for one 64-byte block `p`. -/
def block256 (hs : List Nat) (p : List Byte) : List Nat :=
  let v := (List.range 64).foldl (round256 (schedule p)) hs
  (List.range 8).map (fun i => add32 (hs.getD i 0) (v.getD i 0))

/-- The padding appended by `checkSum`: `0x80`, zero bytes up to 56 modulo 64,
and the length of the message in bits as a big-endian `uint64`. -/
def pad256 (len : Nat) : List Byte :=
  let t := if len % 64 < 56 then 56 - len % 64 else 64 + 56 - len % 64
  let bits := (len <<< 3) % 2 ^ 64
  (0x80 : Byte) :: List.replicate (t - 1) 0 ++
    (List.range 8).map (fun i => (Fin.ofNat (bits >>> (8 * (7 - i))) : Byte))

/-- `sha256.Sum256`, as a byte list of length 32. -/
def sha256 (msg : List Byte) : List Byte :=
  let p := msg ++ pad256 msg.length
  let hs := (List.range (p.length / 64)).foldl
    (fun hs i => block256 hs ((p.drop (64 * i)).take 64)) init256
  (List.range 8).flatMap (fun i =>
    let h := hs.getD i 0
    ([Fin.ofNat (h >>> 24), Fin.ofNat (h >>> 16), Fin.ofNat (h >>> 8), Fin.ofNat h] : List Byte))

/-! ## `crypto/hmac` -/

/-- The key block of `hmac.New(sha256.New, key)`: a key longer than the block
size (64) is hashed first; the key is then copied into a zeroed block. -/
def hmacKeyBlock (key : List Byte) : List Byte :=
  let k := if key.length > 64 then sha256 key else key
  k ++ List.replicate (64 - k.length) 0

/-- The result of `h := hmac.New(sha256.New, key); h.Write(msg); h.Sum(nil)`. -/
def hmacSha256 (key msg : List Byte) : List Byte :=
  let ipad := (hmacKeyBlock key).map (fun b => (Fin.ofNat (b.val ^^^ 0x36) : Byte))
  let opad := (hmacKeyBlock key).map (fun b => (Fin.ofNat (b.val ^^^ 0x5c) : Byte))
  sha256 (opad ++ sha256 (ipad ++ msg))

/-- `subtle.ConstantTimeCompare(x, y) == 1`, which is `hmac.Equal(x, y)`: false
when the lengths differ, otherwise the bytewise differences are or-ed
together and compared with zero. -/
def hmacEqual (x y : List Byte) : Bool :=
  if x.length ≠ y.length then false
  else (List.zipWith (fun a b => a.val ^^^ b.val) x y).foldl (fun v d => v ||| d) 0 == 0

/-! ## `crypto/rand` -/

/-- What one call of `rand.Read` delivers: the bytes the source has available
for the call and whether the call reports an error. -/
structure ReadOutcome where
  /-- The bytes available to the call. -/
  data : List Byte
  /-- Whether `Read` returns a non-nil error. -/
  failed : Bool

/-- The random source: the outcome of each successive call of `rand.Read`
and the number of calls made so far. -/
structure RandReader where
  /-- The outcome of call number `i`. -/
  outcome : Nat → ReadOutcome
  /-- The number of calls of `Read` made so far. -/
  calls : Nat

/-- `rand.Read(b)`: writes `n = min(len(data), len(b))` bytes at the front of
`b` and returns the buffer, `n` and whether an error is reported. -/
def RandReader.Read (rd : RandReader) (b : List Byte) : (List Byte × Nat × Bool) × RandReader :=
  let o := rd.outcome rd.calls
  let n := min o.data.length b.length
  ((o.data.take n ++ b.drop n, n, o.failed), ⟨rd.outcome, rd.calls + 1⟩)

/-! ## Package `sessions` -/

/-- The `error` values of the package, one per place that creates one. Values
created at different places are different values (`errors.New` and
`fmt.Errorf` allocate), which is what the derived equality expresses. -/
inductive GoError
  /-- The value of the package variable `ErrInvalidID`. -/
  | errInvalidID
  /-- The `errors.New("No SigningKey was Present")` of `NewSessionID`. -/
  | noSigningKey
  /-- The `fmt.Errorf("Server error, unable to decrypt 500: %v", err)` of
  `ValidateID`, `err` being the `CorruptInputError` with the given offset. -/
  | decrypt500 (offset : Nat)
  /-- The `fmt.Errorf("invalid id, 400: %v", ErrInvalidID)` of `ValidateID`. -/
  | invalidID400
  deriving DecidableEq, Repr

/-- The package variable `ErrInvalidID = errors.New("Invalid Session ID")`. -/
def ErrInvalidID : GoError := GoError.errInvalidID

/-- The method `Error()`: the message of the error. -/
def GoError.Error : GoError → String
  | errInvalidID => "Invalid Session ID"
  | noSigningKey => "No SigningKey was Present"
  | decrypt500 n =>
    "Server error, unable to decrypt 500: illegal base64 data at input byte " ++ toString n
  | invalidID400 => "invalid id, 400: Invalid Session ID"

/-- The error an error wraps: none of the package's errors wraps another one,
the two `fmt.Errorf` calls format their argument with `%v`, not `%w`. -/
def GoError.Unwrap : GoError → Option GoError
  | _ => none

/-- `errors.Is(err, target)`. -/
def errorsIs (err target : GoError) : Bool :=
  err == target ||
    match err.Unwrap with
    | some e => e == target
    | none => false

/-- `type SessionID string`. -/
abbrev SessionID := List Byte

/-- `const InvalidSessionID SessionID = ""`. -/
def InvalidSessionID : SessionID := []

/-- `const idLength = 32`. -/
def idLength : Nat := 32

/-- `sha256.Size`. -/
def sha256Size : Nat := 32

/-- `const signedLength = idLength + sha256.Size`. -/
def signedLength : Nat := idLength + sha256Size

/-- `func (sid SessionID) String() string`. -/
def SessionID.String (sid : SessionID) : List Byte := sid

/-- `func getSig(idRand []byte, signKey string) []byte`. -/
def getSig (idRand : List Byte) (signKey : List Byte) : List Byte :=
  let key := signKey
  hmacSha256 key idRand

/-- `func makeCryptoID() []byte`: the error of `rand.Read` is only passed to
`fmt.Errorf`, whose result is dropped; the buffer is returned in both cases. -/
def makeCryptoID (rd : RandReader) : List Byte × RandReader :=
  let idRand : List Byte := List.replicate idLength 0
  let r := rd.Read idRand
  let idRand := r.1.1
  let err := r.1.2.2
  let _ := if err then some "error generating salt" else none
  (idRand, r.2)

/-- `func NewSessionID(signingKey string) (SessionID, error)`, with the
random source passed explicitly. -/
def NewSessionID (signingKey : List Byte) (rd : RandReader) :
    (SessionID × Option GoError) × RandReader :=
  if signingKey.length = 0 then
    ((InvalidSessionID, some GoError.noSigningKey), rd)
  else
    let _sessionSlice : List Byte := List.replicate signedLength 0
    let r := makeCryptoID rd
    let idRand := r.1
    let signature := getSig idRand signingKey
    let sessionSlice := idRand ++ signature
    let encoding := EncodeToString sessionSlice
    let id : SessionID := encoding
    ((id, none), r.2)

/-- How a call of `ValidateID` ends: with a run-time panic, or by returning
an identifier and an error (`none` is `nil`). -/
inductive Outcome
  /-- A run-time panic (slice bounds out of range). -/
  | panic
  /-- A normal return. -/
  | ret (sid : SessionID) (err : Option GoError)
  deriving DecidableEq, Repr

/-- `func ValidateID(id string, signingKey string) (SessionID, error)`. -/
def ValidateID (id : List Byte) (signingKey : List Byte) : Outcome :=
  match DecodeString id with
  | (_, some off) => Outcome.ret InvalidSessionID (some (GoError.decrypt500 off))
  | (decodeID, none) =>
    let key := signingKey
    -- hash.Write(decodeID[0:idLength])
    match decodeID.slice 0 idLength with
    | none => Outcome.panic
    | some idPart =>
      let signature := hmacSha256 key idPart.data
      -- hmac.Equal(signature, decodeID[idLength:])
      match decodeID.sliceFrom idLength with
      | none => Outcome.panic
      | some tag =>
        if hmacEqual signature tag.data then Outcome.ret id none
        else Outcome.ret InvalidSessionID (some GoError.invalidID400)

/-! ## Sample inputs -/

/-- A random source that fills the buffer of every call with the 32 bytes
`3, 10, 17, ...` and reports no error. -/
def exampleReader : RandReader :=
  ⟨fun _ => ⟨(List.range 32).map (fun i => (Fin.ofNat (7 * i + 3) : Byte)), false⟩, 0⟩

/-- A random source whose every call writes nothing and reports an error. -/
def failingReader : RandReader := ⟨fun _ => ⟨[], true⟩, 0⟩

/-- The 44 characters `AAAA...A=`, which decode to 32 zero bytes. -/
def zeroID : List Byte := List.replicate 43 65 ++ [padChar]

/-! ## `ValidateID` with the state of the program made explicit -/

/-- The mutable state a call of the package can see: the random source and
the package variable `var ErrInvalidID`, which is exported and can be
assigned at any time. -/
structure World where
  /-- The random source read by `rand.Read`. -/
  rand : RandReader
  /-- The text `Error()` gives for the value the variable `ErrInvalidID`
  holds now, `none` when the variable is `nil`. -/
  ErrInvalidID : Option String

/-- The state after package initialisation: `ErrInvalidID` holds
`errors.New("Invalid Session ID")`. -/
def World.initial (rd : RandReader) : World := ⟨rd, some (GoError.Error Sessions.ErrInvalidID)⟩

/-- An `error` value as the caller receives it: the place that made it and
the text of its `Error()` method. -/
structure ErrorValue where
  /-- The place in the package that made the error. -/
  site : GoError
  /-- The message of the error. -/
  text : String
  deriving DecidableEq, Repr

/-- How a call of `ValidateID` ends when the errors carry their text. -/
inductive Returned
  /-- A run-time panic (slice bounds out of range). -/
  | panic
  /-- A normal return. -/
  | ret (sid : SessionID) (err : Option ErrorValue)
  deriving DecidableEq, Repr

/-- The identifier returned and whether and where an error was made, without
the text of the error. -/
def Returned.outcome : Returned → Outcome
  | Returned.panic => Outcome.panic
  | Returned.ret sid none => Outcome.ret sid none
  | Returned.ret sid (some e) => Outcome.ret sid (some e.site)

/-- `func ValidateID(id string, signingKey string) (SessionID, error)` run in
a state of the program: the body of `ValidateID` statement by statement, with
the state it is run in and the state it leaves. The body calls neither
`rand.Read` nor assigns a package variable; it reads `ErrInvalidID` once, to
format the error of the last line with `%v` (`<nil>` for a nil value). -/
def ValidateIDIn (w : World) (id : List Byte) (signingKey : List Byte) : Returned × World :=
  match DecodeString id with
  | (_, some off) =>
    (Returned.ret InvalidSessionID
      (some ⟨GoError.decrypt500 off, (GoError.decrypt500 off).Error⟩), w)
  | (decodeID, none) =>
    let key := signingKey
    -- hash.Write(decodeID[0:idLength])
    match decodeID.slice 0 idLength with
    | none => (Returned.panic, w)
    | some idPart =>
      let signature := hmacSha256 key idPart.data
      -- hmac.Equal(signature, decodeID[idLength:])
      match decodeID.sliceFrom idLength with
      | none => (Returned.panic, w)
      | some tag =>
        if hmacEqual signature tag.data then (Returned.ret id none, w)
        else
          (Returned.ret InvalidSessionID
            (some ⟨GoError.invalidID400, "invalid id, 400: " ++ w.ErrInvalidID.getD "<nil>"⟩), w)

/-! ## Tampering with a decoded buffer -/

/-- The buffer `buf` with bit `b` of its byte number `i` flipped, the
tampering of the tamper-detection property. -/
def flipBit (buf : List Byte) (i b : Nat) : List Byte :=
  buf.set i (Fin.ofNat ((buf.getD i 0).val ^^^ 1 <<< b))

/-- A random source whose every call writes three bytes and reports an error. -/
def partialReader : RandReader := ⟨fun _ => ⟨[1, 2, 3], true⟩, 0⟩

/-! ## Bit arithmetic -/

theorem or_eq_add_of_lt (i c b : Nat) (h : b < 2 ^ i) : 2 ^ i * c ||| b = 2 ^ i * c + b :=
  (Nat.mul_add_lt_is_or h c).symm

theorem and_63 (x : Nat) : x &&& 0x3F = x % 64 := by
  have h := Nat.and_pow_two_sub_one_eq_mod x 6
  simpa using h

theorem pack3 (b0 b1 b2 : Nat) (h1 : b1 < 256) (h2 : b2 < 256) :
    b0 <<< 16 ||| b1 <<< 8 ||| b2 = b0 * 65536 + b1 * 256 + b2 := by
  simp only [Nat.shiftLeft_eq]
  have e1 : b0 * 2 ^ 16 ||| b1 * 2 ^ 8 = b0 * 65536 + b1 * 256 := by
    have h := or_eq_add_of_lt 16 b0 (b1 * 2 ^ 8) (by omega)
    rw [Nat.mul_comm (2 ^ 16) b0] at h
    rw [h]; norm_num
  rw [e1]
  have e2 : b0 * 65536 + b1 * 256 = 2 ^ 8 * (b0 * 256 + b1) := by omega
  rw [e2, or_eq_add_of_lt 8 _ b2 (by omega)]

theorem pack4 (s0 s1 s2 s3 : Nat) (h1 : s1 < 64) (h2 : s2 < 64) (h3 : s3 < 64) :
    s0 <<< 18 ||| s1 <<< 12 ||| s2 <<< 6 ||| s3 = s0 * 262144 + s1 * 4096 + s2 * 64 + s3 := by
  simp only [Nat.shiftLeft_eq]
  have e1 : s0 * 2 ^ 18 ||| s1 * 2 ^ 12 = s0 * 262144 + s1 * 4096 := by
    have h := or_eq_add_of_lt 18 s0 (s1 * 2 ^ 12) (by omega)
    rw [Nat.mul_comm (2 ^ 18) s0] at h
    rw [h]; norm_num
  rw [e1]
  have e2 : s0 * 262144 + s1 * 4096 = 2 ^ 12 * (s0 * 64 + s1) := by omega
  rw [e2, or_eq_add_of_lt 12 _ (s2 * 2 ^ 6) (by omega)]
  have e3 : 2 ^ 12 * (s0 * 64 + s1) + s2 * 2 ^ 6 = 2 ^ 6 * (s0 * 4096 + s1 * 64 + s2) := by omega
  rw [e3, or_eq_add_of_lt 6 _ s3 (by omega)]
  omega

/-! ## Base64: decoding what was encoded -/

theorem decodeMap_encodeChar (i : Nat) (h : i < 64) : decodeMap (encodeChar i) = i := by
  have key : ∀ j : Fin 64, decodeMap (encodeChar j.val) = j.val := by decide
  exact key ⟨i, h⟩

theorem decodeMap_padChar : decodeMap padChar = 0xff := by decide

theorem quantumBytes_four (b0 b1 b2 : Byte) :
    quantumBytes
      [(b0.val <<< 16 ||| b1.val <<< 8 ||| b2.val) >>> 18 &&& 0x3F,
       (b0.val <<< 16 ||| b1.val <<< 8 ||| b2.val) >>> 12 &&& 0x3F,
       (b0.val <<< 16 ||| b1.val <<< 8 ||| b2.val) >>> 6 &&& 0x3F,
       (b0.val <<< 16 ||| b1.val <<< 8 ||| b2.val) &&& 0x3F] = [b0, b1, b2] := by
  have h0 := b0.isLt
  have h1 := b1.isLt
  have h2 := b2.isLt
  simp only [quantumBytes, pack3 _ _ _ h1 h2, and_63, Nat.shiftRight_eq_div_pow,
    List.getD_cons_zero, List.getD_cons_succ, List.length_cons, List.length_nil]
  rw [pack4 _ _ _ _ (Nat.mod_lt _ (by norm_num)) (Nat.mod_lt _ (by norm_num))
    (Nat.mod_lt _ (by norm_num))]
  simp only [List.take, Fin.ofNat]
  refine congrArg₂ _ (Fin.ext ?_) (congrArg₂ _ (Fin.ext ?_) (congrArg₂ _ (Fin.ext ?_) rfl))
  all_goals simp only []
  all_goals omega

theorem pack2 (b0 b1 : Nat) (h1 : b1 < 256) :
    b0 <<< 16 ||| b1 <<< 8 = b0 * 65536 + b1 * 256 := by
  have h := pack3 b0 b1 0 h1 (by norm_num)
  simpa using h

theorem quantumBytes_three (b0 b1 : Byte) :
    quantumBytes
      [(b0.val <<< 16 ||| b1.val <<< 8) >>> 18 &&& 0x3F,
       (b0.val <<< 16 ||| b1.val <<< 8) >>> 12 &&& 0x3F,
       (b0.val <<< 16 ||| b1.val <<< 8) >>> 6 &&& 0x3F] = [b0, b1] := by
  have h0 := b0.isLt
  have h1 := b1.isLt
  simp only [quantumBytes, pack2 _ _ h1, and_63, Nat.shiftRight_eq_div_pow,
    List.getD_cons_zero, List.getD_cons_succ, List.length_cons, List.length_nil, List.getD_nil]
  rw [pack4 _ _ _ _ (Nat.mod_lt _ (by norm_num)) (Nat.mod_lt _ (by norm_num)) (by norm_num)]
  simp only [List.take, Fin.ofNat]
  refine congrArg₂ _ (Fin.ext ?_) (congrArg₂ _ (Fin.ext ?_) rfl)
  all_goals simp only []
  all_goals omega

theorem quantumBytes_two (b0 : Byte) :
    quantumBytes [(b0.val <<< 16) >>> 18 &&& 0x3F, (b0.val <<< 16) >>> 12 &&& 0x3F] = [b0] := by
  have h0 := b0.isLt
  simp only [quantumBytes, Nat.shiftLeft_eq, and_63, Nat.shiftRight_eq_div_pow,
    List.getD_cons_zero, List.getD_cons_succ, List.length_cons, List.length_nil, List.getD_nil]
  have e := pack4 (b0.val * 2 ^ 16 / 2 ^ 18 % 64) (b0.val * 2 ^ 16 / 2 ^ 12 % 64) 0 0
    (Nat.mod_lt _ (by norm_num)) (by norm_num) (by norm_num)
  simp only [Nat.shiftLeft_eq] at e
  rw [e]
  simp only [List.take, Fin.ofNat]
  refine congrArg₂ _ (Fin.ext ?_) rfl
  simp only []
  omega

theorem sextet_valid (v : Nat) : decodeMap (encodeChar (v &&& 0x3F)) = v &&& 0x3F :=
  decodeMap_encodeChar _ (by rw [and_63]; exact Nat.mod_lt _ (by norm_num))

theorem sextet_ne (v : Nat) : decodeMap (encodeChar (v &&& 0x3F)) ≠ 0xff := by
  rw [sextet_valid, and_63]
  have := Nat.mod_lt v (show 0 < 64 by norm_num)
  omega

theorem decodeLoop_sextet (v : Nat) (rest : List Byte) (si : Nat) (dbuf : List Nat)
    (hl : dbuf.length ≠ 3) :
    decodeLoop (encodeChar (v &&& 0x3F) :: rest) si dbuf
      = decodeLoop rest (si + 1) (dbuf ++ [v &&& 0x3F]) := by
  rw [decodeLoop, if_pos (sextet_ne v), if_neg hl, sextet_valid]

theorem decodeLoop_sextet_last (v : Nat) (rest : List Byte) (si : Nat) (dbuf : List Nat)
    (hl : dbuf.length = 3) :
    decodeLoop (encodeChar (v &&& 0x3F) :: rest) si dbuf
      = (quantumBytes (dbuf ++ [v &&& 0x3F]) ++ (decodeLoop rest (si + 1) []).1,
          (decodeLoop rest (si + 1) []).2) := by
  rw [decodeLoop, if_pos (sextet_ne v), if_pos hl, sextet_valid]

theorem decodeLoop_padChar (rest : List Byte) (si : Nat) (dbuf : List Nat) :
    decodeLoop (padChar :: rest) si dbuf = decodePadding dbuf rest (si + 1) := by
  rw [decodeLoop, if_neg (by rw [decodeMap_padChar]; exact fun h => h rfl),
    if_neg (by decide), if_neg (fun h => h rfl)]

theorem decodeLoop_EncodeToString (x : List Byte) :
    ∀ si, decodeLoop (EncodeToString x) si [] = (x, none) := by
  induction x using EncodeToString.induct with
  | case1 b0 b1 b2 rest ih =>
    intro si
    rw [EncodeToString]
    rw [decodeLoop_sextet _ _ _ _ (by simp), decodeLoop_sextet _ _ _ _ (by simp),
      decodeLoop_sextet _ _ _ _ (by simp), decodeLoop_sextet_last _ _ _ _ (by simp), ih]
    simp only [List.nil_append, List.cons_append, quantumBytes_four]
  | case2 b0 b1 =>
    intro si
    rw [EncodeToString]
    rw [decodeLoop_sextet _ _ _ _ (by simp), decodeLoop_sextet _ _ _ _ (by simp),
      decodeLoop_sextet _ _ _ _ (by simp), decodeLoop_padChar]
    simp only [List.nil_append, List.cons_append, decodePadding, skipNewlines, List.length_cons,
      List.length_nil, quantumBytes_three]
    rfl
  | case3 b0 =>
    intro si
    rw [EncodeToString]
    rw [decodeLoop_sextet _ _ _ _ (by simp), decodeLoop_sextet _ _ _ _ (by simp),
      decodeLoop_padChar]
    simp only [List.nil_append, List.cons_append, decodePadding, skipNewlines, List.length_cons,
      List.length_nil, quantumBytes_two]
    rfl
  | case4 =>
    intro si
    simp [EncodeToString, decodeLoop]

/-! ## Lengths -/

theorem EncodeToString_length (x : List Byte) :
    (EncodeToString x).length = (x.length + 2) / 3 * 4 := by
  induction x using EncodeToString.induct with
  | case1 b0 b1 b2 rest ih =>
    rw [EncodeToString]
    simp only [List.length_cons, ih]
    omega
  | case2 b0 b1 => simp [EncodeToString]
  | case3 b0 => simp [EncodeToString]
  | case4 => rfl

theorem sha256_length (msg : List Byte) : (sha256 msg).length = 32 := by
  simp [sha256, List.range, List.range.loop, List.flatMap, List.flatten]

theorem hmacSha256_length (key msg : List Byte) : (hmacSha256 key msg).length = 32 :=
  sha256_length _

/-! ## `hmac.Equal` decides equality -/

theorem or_eq_zero (a b : Nat) (h : a ||| b = 0) : a = 0 ∧ b = 0 := by
  have hbit : ∀ i, (a.testBit i || b.testBit i) = false := by
    intro i
    rw [← Nat.testBit_or, h, Nat.zero_testBit]
  constructor
  · exact Nat.zero_of_testBit_eq_false (fun i => (Bool.or_eq_false_iff.mp (hbit i)).1)
  · exact Nat.zero_of_testBit_eq_false (fun i => (Bool.or_eq_false_iff.mp (hbit i)).2)

theorem foldl_or_eq_zero (ds : List Nat) :
    ∀ v, ds.foldl (fun v d => v ||| d) v = 0 ↔ v = 0 ∧ ∀ d ∈ ds, d = 0 := by
  induction ds with
  | nil => intro v; simp
  | cons d ds ih =>
    intro v
    rw [List.foldl_cons, ih]
    simp only [List.mem_cons, forall_eq_or_imp]
    constructor
    · rintro ⟨h, hds⟩
      have hz := or_eq_zero _ _ h
      exact ⟨hz.1, hz.2, hds⟩
    · rintro ⟨hv, hd, hds⟩
      exact ⟨by rw [hv, hd]; rfl, hds⟩

theorem zipWith_xor_zero (x : List Byte) :
    ∀ y : List Byte, x.length = y.length →
      ((∀ d ∈ List.zipWith (fun a b => a.val ^^^ b.val) x y, d = 0) ↔ x = y) := by
  induction x with
  | nil =>
    intro y h
    cases y with
    | nil => simp
    | cons b y => simp at h
  | cons a x ih =>
    intro y h
    cases y with
    | nil => simp at h
    | cons b y =>
      simp only [List.length_cons, Nat.add_right_cancel_iff] at h
      simp only [List.zipWith_cons_cons, List.mem_cons, forall_eq_or_imp, ih y h, List.cons.injEq,
        Nat.xor_eq_zero, Fin.val_inj]

theorem hmacEqual_iff (x y : List Byte) : hmacEqual x y = true ↔ x = y := by
  unfold hmacEqual
  by_cases h : x.length = y.length
  · rw [if_neg (by simpa using h)]
    rw [beq_iff_eq, foldl_or_eq_zero, ← zipWith_xor_zero x y h]
    simp
  · rw [if_pos h]
    constructor
    · intro hx; cases hx
    · intro hx; exact absurd (congrArg List.length hx) h

/-! ## The decoder on an encoded buffer, and the three ways `ValidateID` ends -/

theorem DecodeString_EncodeToString (x : List Byte) :
    DecodeString (EncodeToString x)
      = (⟨x, List.replicate (DecodedLen (EncodeToString x).length - x.length) 0⟩, none) := by
  simp only [DecodeString, decodeLoop_EncodeToString]

theorem ValidateID_of_decode_error (id k : List Byte) (s : Slice) (off : Nat)
    (h : DecodeString id = (s, some off)) :
    ValidateID id k = Outcome.ret InvalidSessionID (some (GoError.decrypt500 off)) := by
  simp only [ValidateID, h]

theorem ValidateID_of_short (id k d sp : List Byte) (h : DecodeString id = (⟨d, sp⟩, none))
    (hlen : d.length < 32) : ValidateID id k = Outcome.panic := by
  simp only [ValidateID, h, Slice.sliceFrom, Slice.slice, Slice.len, Slice.cap, idLength]
  have h2 : ¬ (32 ≤ d.length ∧ d.length ≤ d.length + sp.length) := by omega
  rw [if_neg h2]
  split <;> rfl

theorem ValidateID_of_decoded (id k d sp : List Byte) (h : DecodeString id = (⟨d, sp⟩, none))
    (hlen : 32 ≤ d.length) :
    ValidateID id k =
      if hmacSha256 k (d.take 32) = d.drop 32 then Outcome.ret id none
      else Outcome.ret InvalidSessionID (some GoError.invalidID400) := by
  simp only [ValidateID, h, Slice.sliceFrom, Slice.slice, Slice.len, Slice.cap, idLength]
  have h1 : (0 ≤ 32 ∧ 32 ≤ d.length + sp.length) := by omega
  have h2 : (32 ≤ d.length ∧ d.length ≤ d.length + sp.length) := by omega
  rw [if_pos h1, if_pos h2]
  have e1 : List.take (32 - 0) (List.drop 0 (d ++ sp)) = d.take 32 := by
    simp only [Nat.sub_zero, List.drop_zero]
    exact List.take_append_of_le_length hlen
  have e2 : List.take (d.length - 32) (List.drop 32 (d ++ sp)) = d.drop 32 := by
    rw [List.drop_append_of_le_length hlen, List.take_append_of_le_length (by simp)]
    exact List.take_of_length_le (by simp)
  simp only [e1, e2]
  by_cases hc : hmacSha256 k (d.take 32) = d.drop 32
  · rw [if_pos ((hmacEqual_iff _ _).mpr hc), if_pos hc]
  · rw [if_neg (fun hh => hc ((hmacEqual_iff _ _).mp hh)), if_neg hc]

/-! ## `NewSessionID` on a non-empty key -/

theorem makeCryptoID_length (rd : RandReader) : (makeCryptoID rd).1.length = 32 := by
  simp only [makeCryptoID, RandReader.Read, idLength, List.length_append, List.length_take,
    List.length_drop, List.length_replicate]
  omega

theorem makeCryptoID_of_full (rd : RandReader) (r : List Byte) (hr : r.length = 32)
    (h : (rd.outcome rd.calls).data = r) : (makeCryptoID rd).1 = r := by
  simp only [makeCryptoID, RandReader.Read, idLength, h, hr, List.length_replicate, Nat.min_self]
  rw [List.take_of_length_le (by omega), List.drop_of_length_le (by simp)]
  simp

theorem NewSessionID_of_key (k : List Byte) (rd : RandReader) (hk : k ≠ []) :
    NewSessionID k rd
      = ((EncodeToString ((makeCryptoID rd).1 ++ hmacSha256 k (makeCryptoID rd).1), none),
          (makeCryptoID rd).2) := by
  have h0 : ¬ k.length = 0 := fun h => hk (List.length_eq_zero.mp h)
  simp only [NewSessionID, if_neg h0, getSig]

theorem ValidateID_encoded (x k : List Byte) (hx : 32 ≤ x.length) :
    ValidateID (EncodeToString x) k =
      if hmacSha256 k (x.take 32) = x.drop 32 then Outcome.ret (EncodeToString x) none
      else Outcome.ret InvalidSessionID (some GoError.invalidID400) :=
  ValidateID_of_decoded _ k x _ (DecodeString_EncodeToString x) hx

theorem hmacKeyBlock_zero (k : List Byte) (h : k.length < 64) :
    hmacKeyBlock (k ++ [0]) = hmacKeyBlock k := by
  have h1 : ¬ (k ++ [0]).length > 64 := by
    rw [List.length_append, List.length_singleton]; omega
  have h2 : ¬ k.length > 64 := by omega
  unfold hmacKeyBlock
  simp only []
  rw [if_neg h1, if_neg h2, List.length_append, List.length_singleton, List.append_assoc]
  have e : 64 - k.length = (64 - (k.length + 1)) + 1 := by omega
  rw [e, List.replicate_succ]
  rfl

/-! ## Validating a minted identifier -/

theorem ValidateID_NewSessionID (k1 k2 : List Byte) (rd : RandReader) (hk : k1 ≠ []) :
    ValidateID (NewSessionID k1 rd).1.1 k2 =
      if hmacSha256 k2 (makeCryptoID rd).1 = hmacSha256 k1 (makeCryptoID rd).1 then
        Outcome.ret (NewSessionID k1 rd).1.1 none
      else Outcome.ret InvalidSessionID (some GoError.invalidID400) := by
  have hl := makeCryptoID_length rd
  rw [NewSessionID_of_key k1 rd hk]
  simp only []
  rw [ValidateID_encoded _ _ (by rw [List.length_append]; omega), List.take_left' hl,
    List.drop_left' hl]

theorem NewSessionID_ne_invalid (k : List Byte) (rd : RandReader) (hk : k ≠ []) :
    (NewSessionID k rd).1.1 ≠ InvalidSessionID := by
  intro h
  have hlen := congrArg List.length h
  rw [NewSessionID_of_key k rd hk] at hlen
  simp only [EncodeToString_length, List.length_append, makeCryptoID_length, hmacSha256_length,
    InvalidSessionID, List.length_nil] at hlen
  omega

theorem hmacSha256_zero (k msg : List Byte) (h : k.length < 64) :
    hmacSha256 (k ++ [0]) msg = hmacSha256 k msg := by
  simp only [hmacSha256, hmacKeyBlock_zero k h]

theorem tag_wrong_ne_secret :
    hmacSha256 (ascii "wrong") (makeCryptoID exampleReader).1
      ≠ hmacSha256 (ascii "secret") (makeCryptoID exampleReader).1 := by
  decide!

/-! ## The claims -/

/-- C1 (round trip): for every non-empty signing key and every outcome of the
random source (a 32-byte one in particular), an identifier returned by
`NewSessionID` with a nil error is accepted by `ValidateID` under the same
key, which returns that same identifier and a nil error. -/
theorem C1_round_trip (k : List Byte) (rd : RandReader) (sid : SessionID) (hk : k ≠ [])
    (h : (NewSessionID k rd).1 = (sid, none)) :
    ValidateID (SessionID.String sid) k = Outcome.ret sid none := by
  rw [NewSessionID_of_key k rd hk] at h
  have hs : EncodeToString ((makeCryptoID rd).1 ++ hmacSha256 k (makeCryptoID rd).1) = sid :=
    congrArg Prod.fst h
  have hl := makeCryptoID_length rd
  subst hs
  rw [SessionID.String, ValidateID_encoded _ _ (by rw [List.length_append]; omega), if_pos]
  rw [List.take_left' hl, List.drop_left' hl]

/-- Witness of C1: the key `secret` and the sample random source. -/
theorem C1_round_trip_witness :
    ascii "secret" ≠ [] ∧ (exampleReader.outcome exampleReader.calls).data.length = 32 ∧
      ValidateID (SessionID.String (NewSessionID (ascii "secret") exampleReader).1.1)
          (ascii "secret")
        = Outcome.ret (NewSessionID (ascii "secret") exampleReader).1.1 none :=
  ⟨by decide, by decide,
    C1_round_trip (ascii "secret") exampleReader _ (by decide) rfl⟩

/-- C2 (short decoded length), evaluated on the code: under every signing key
the candidates `""` and `"YWJj"` (valid base64 of zero and of three bytes)
make `ValidateID` end in a run-time panic instead of returning
`InvalidSessionID` with an error. -/
theorem C2_short_input_panics (k : List Byte) :
    (DecodeString (ascii "")).2 = none ∧ (DecodeString (ascii "YWJj")).2 = none ∧
      ValidateID (ascii "") k = Outcome.panic ∧ ValidateID (ascii "YWJj") k = Outcome.panic :=
  ⟨by decide, by decide,
    ValidateID_of_short (ascii "") k [] [] (by decide) (by decide),
    ValidateID_of_short (ascii "YWJj") k (ascii "abc") [] (by decide) (by decide)⟩

/-- C3 (acceptance condition): when the candidate decodes without error to a
buffer `d` of at least 32 bytes, `ValidateID` returns the candidate itself
with a nil error exactly when `d[32:]` is the HMAC-SHA256 of `d[0:32]` under
the signing key, and otherwise returns `InvalidSessionID` with the
`invalid id, 400` error. -/
theorem C3_acceptance_condition (id k d sp : List Byte)
    (hdec : DecodeString id = (⟨d, sp⟩, none)) (hlen : 32 ≤ d.length) :
    (ValidateID id k = Outcome.ret id none ↔ d.drop 32 = hmacSha256 k (d.take 32)) ∧
      (d.drop 32 ≠ hmacSha256 k (d.take 32) →
        ValidateID id k = Outcome.ret InvalidSessionID (some GoError.invalidID400)) := by
  rw [ValidateID_of_decoded id k d sp hdec hlen]
  by_cases hc : hmacSha256 k (d.take 32) = d.drop 32
  · rw [if_pos hc]
    exact ⟨⟨fun _ => hc.symm, fun _ => rfl⟩, fun hne => absurd hc.symm hne⟩
  · rw [if_neg hc]
    refine ⟨⟨fun h => ?_, fun h => absurd h.symm hc⟩, fun _ => rfl⟩
    cases h

/-- Witness of C3: the candidate `AAAA...A=` (32 zero bytes, no tag) under the
key `k`. -/
theorem C3_acceptance_condition_witness :
    DecodeString zeroID = (⟨List.replicate 32 0, [0]⟩, none) ∧
      32 ≤ (List.replicate 32 (0 : Byte)).length ∧
      ((ValidateID zeroID (ascii "k") = Outcome.ret zeroID none ↔
          (List.replicate 32 (0 : Byte)).drop 32
            = hmacSha256 (ascii "k") ((List.replicate 32 (0 : Byte)).take 32)) ∧
        ((List.replicate 32 (0 : Byte)).drop 32
            ≠ hmacSha256 (ascii "k") ((List.replicate 32 (0 : Byte)).take 32) →
          ValidateID zeroID (ascii "k")
            = Outcome.ret InvalidSessionID (some GoError.invalidID400))) :=
  ⟨by decide, by decide,
    C3_acceptance_condition zeroID (ascii "k") (List.replicate 32 0) [0] (by decide) (by decide)⟩

/-- C4 (empty key): on the empty signing key `NewSessionID` returns
`InvalidSessionID` and the `No SigningKey was Present` error whatever the
random source is, and the random source is returned untouched (no call of
`Read` was made). -/
theorem C4_empty_key (rd : RandReader) :
    NewSessionID (ascii "") rd = ((InvalidSessionID, some GoError.noSigningKey), rd) ∧
      (NewSessionID (ascii "") rd).2.calls = rd.calls :=
  ⟨rfl, rfl⟩

/-- C5 (randomness failure), evaluated on the code: with the key `k` and a
random source whose call reports an error, `NewSessionID` returns a nil error
and an identifier other than `InvalidSessionID` (the encoding of the untouched
zero buffer and its tag), so the failure is not surfaced. -/
theorem C5_rand_error_dropped :
    (failingReader.outcome failingReader.calls).failed = true ∧
      (NewSessionID (ascii "k") failingReader).1.2 = none ∧
      (NewSessionID (ascii "k") failingReader).1.1 ≠ InvalidSessionID ∧
      (NewSessionID (ascii "k") failingReader).1.1
        = EncodeToString (List.replicate 32 0 ++ hmacSha256 (ascii "k") (List.replicate 32 0)) :=
  ⟨rfl, rfl, NewSessionID_ne_invalid (ascii "k") failingReader (by decide), rfl⟩

/-- C6, as stated, fails: the keys `a` and `a\x00` are different and the first
is non-empty, yet an identifier minted under `a` is accepted by `ValidateID`
under `a\x00` (HMAC pads a short key with zero bytes). -/
theorem C6_wrong_key_counterexample :
    ascii "a" ≠ [] ∧ ascii "a" ≠ ascii "a" ++ [0] ∧
      (NewSessionID (ascii "a") exampleReader).1.2 = none ∧
      ValidateID (SessionID.String (NewSessionID (ascii "a") exampleReader).1.1)
          (ascii "a" ++ [0])
        = Outcome.ret (NewSessionID (ascii "a") exampleReader).1.1 none := by
  refine ⟨by decide, by decide, rfl, ?_⟩
  rw [SessionID.String, ValidateID_NewSessionID _ _ _ (by decide), if_pos]
  exact hmacSha256_zero (ascii "a") _ (by decide)

/-- C6 (wrong key), amended: for signing keys `k1` non-empty and `k2` whose
HMAC-SHA256 tags of the 32 identifier bytes drawn by `NewSessionID` differ,
an identifier returned without error by `NewSessionID(k1)` is rejected by
`ValidateID` under `k2` with `InvalidSessionID` and the `invalid id, 400`
error. -/
theorem C6_wrong_key_rejected (k1 k2 : List Byte) (rd : RandReader) (sid : SessionID)
    (hk : k1 ≠ [])
    (htag : hmacSha256 k2 (makeCryptoID rd).1 ≠ hmacSha256 k1 (makeCryptoID rd).1)
    (h : (NewSessionID k1 rd).1 = (sid, none)) :
    ValidateID (SessionID.String sid) k2
      = Outcome.ret InvalidSessionID (some GoError.invalidID400) := by
  have hs : (NewSessionID k1 rd).1.1 = sid := congrArg Prod.fst h
  rw [SessionID.String, ← hs, ValidateID_NewSessionID k1 k2 rd hk, if_neg htag]

/-- Witness of the amended C6: minted under `secret`, validated under `wrong`. -/
theorem C6_wrong_key_rejected_witness :
    ascii "secret" ≠ [] ∧
      hmacSha256 (ascii "wrong") (makeCryptoID exampleReader).1
        ≠ hmacSha256 (ascii "secret") (makeCryptoID exampleReader).1 ∧
      ValidateID (SessionID.String (NewSessionID (ascii "secret") exampleReader).1.1)
          (ascii "wrong")
        = Outcome.ret InvalidSessionID (some GoError.invalidID400) :=
  ⟨by decide, tag_wrong_ne_secret,
    C6_wrong_key_rejected (ascii "secret") (ascii "wrong") exampleReader _ (by decide)
      tag_wrong_ne_secret rfl⟩

/-- C7 (layout and length): for every non-empty signing key and every 32 bytes
`r` delivered by the random source, `NewSessionID` returns, with a nil error,
the padded base64-URL encoding of the 64 bytes `r ++ HMAC-SHA256(k, r)`, a
string of 88 characters whatever the length of the key. -/
theorem C7_layout (k r : List Byte) (rd : RandReader) (hk : k ≠ []) (hr : r.length = 32)
    (hrd : (rd.outcome rd.calls).data = r) :
    (NewSessionID k rd).1 = (EncodeToString (r ++ hmacSha256 k r), none) ∧
      (r ++ hmacSha256 k r).length = 64 ∧ (NewSessionID k rd).1.1.length = 88 := by
  rw [NewSessionID_of_key k rd hk, makeCryptoID_of_full rd r hr hrd]
  refine ⟨rfl, ?_, ?_⟩
  · rw [List.length_append, hr, hmacSha256_length]
  · rw [EncodeToString_length, List.length_append, hr, hmacSha256_length]

/-- Witness of C7: the key `secret` and the 32 bytes of the sample source. -/
theorem C7_layout_witness :
    ascii "secret" ≠ [] ∧
      ((NewSessionID (ascii "secret") exampleReader).1
          = (EncodeToString ((exampleReader.outcome 0).data
              ++ hmacSha256 (ascii "secret") (exampleReader.outcome 0).data), none) ∧
        ((exampleReader.outcome 0).data
          ++ hmacSha256 (ascii "secret") (exampleReader.outcome 0).data).length = 64 ∧
        (NewSessionID (ascii "secret") exampleReader).1.1.length = 88) :=
  ⟨by decide,
    C7_layout (ascii "secret") (exampleReader.outcome 0).data exampleReader (by decide)
      (by decide) rfl⟩

/-- C8 (valid-identifier invariant): an identifier returned with a nil error
by `NewSessionID` or by `ValidateID` decodes without error to exactly 64
bytes, the last 32 of which are the HMAC-SHA256 tag of the first 32 under the
signing key; so `ValidateID` accepts no candidate of another decoded length. -/
theorem C8_valid_decodes_to_64 (k id : List Byte) (rd : RandReader) (sid : SessionID)
    (h : (NewSessionID k rd).1 = (sid, none) ∨ ValidateID id k = Outcome.ret sid none) :
    (DecodeString sid).2 = none ∧ (DecodeString sid).1.data.length = 64 ∧
      (DecodeString sid).1.data.drop 32 = hmacSha256 k ((DecodeString sid).1.data.take 32) := by
  rcases h with h | h
  · have hk : k ≠ [] := by
      intro hk
      subst hk
      cases h
    have hl := makeCryptoID_length rd
    rw [NewSessionID_of_key k rd hk] at h
    have hs : EncodeToString ((makeCryptoID rd).1 ++ hmacSha256 k (makeCryptoID rd).1) = sid :=
      congrArg Prod.fst h
    subst hs
    rw [DecodeString_EncodeToString]
    refine ⟨rfl, ?_, ?_⟩
    · simp only [List.length_append, hl, hmacSha256_length]
    · simp only [List.take_left' hl, List.drop_left' hl]
  · rcases hdec : DecodeString id with ⟨⟨d, sp⟩, e⟩
    cases e with
    | some off =>
      rw [ValidateID_of_decode_error id k _ off hdec] at h
      cases h
    | none =>
      by_cases hlen : 32 ≤ d.length
      · rw [ValidateID_of_decoded id k d sp hdec hlen] at h
        by_cases hc : hmacSha256 k (d.take 32) = d.drop 32
        · rw [if_pos hc] at h
          have hs : id = sid := by cases h; rfl
          subst hs
          rw [hdec]
          have h32 := congrArg List.length hc
          rw [hmacSha256_length, List.length_drop] at h32
          exact ⟨rfl, by simp only []; omega, hc.symm⟩
        · rw [if_neg hc] at h
          cases h
      · rw [ValidateID_of_short id k d sp hdec (by omega)] at h
        cases h

/-- Witness of C8: the identifier minted under `secret` from the sample source. -/
theorem C8_valid_decodes_to_64_witness :
    (DecodeString (NewSessionID (ascii "secret") exampleReader).1.1).2 = none ∧
      (DecodeString (NewSessionID (ascii "secret") exampleReader).1.1).1.data.length = 64 ∧
      (DecodeString (NewSessionID (ascii "secret") exampleReader).1.1).1.data.drop 32
        = hmacSha256 (ascii "secret")
            ((DecodeString (NewSessionID (ascii "secret") exampleReader).1.1).1.data.take 32) :=
  C8_valid_decodes_to_64 (ascii "secret") [] exampleReader _ (Or.inl rfl)

/-- C9 (malformed input): when the base64 URL decoder rejects the candidate,
`ValidateID` returns `InvalidSessionID` and the `unable to decrypt 500` error
that carries the decoder's error, and the result is the same under every
signing key (the tag is not computed). -/
theorem C9_malformed_rejected (id k : List Byte) (off : Nat)
    (h : (DecodeString id).2 = some off) :
    ValidateID id k = Outcome.ret InvalidSessionID (some (GoError.decrypt500 off)) ∧
      ∀ k2, ValidateID id k2 = ValidateID id k := by
  have hdec : DecodeString id = ((DecodeString id).1, some off) := by rw [← h]
  exact ⟨ValidateID_of_decode_error id k _ off hdec, fun k2 => by
    rw [ValidateID_of_decode_error id k _ off hdec, ValidateID_of_decode_error id k2 _ off hdec]⟩

/-- Witness of C9: the candidate `not-valid-base64!!`, rejected at byte 16. -/
theorem C9_malformed_rejected_witness :
    (DecodeString (ascii "not-valid-base64!!")).2 = some 16 ∧
      (ValidateID (ascii "not-valid-base64!!") (ascii "secret")
          = Outcome.ret InvalidSessionID (some (GoError.decrypt500 16)) ∧
        ∀ k2, ValidateID (ascii "not-valid-base64!!") k2
          = ValidateID (ascii "not-valid-base64!!") (ascii "secret")) :=
  ⟨by decide, C9_malformed_rejected (ascii "not-valid-base64!!") (ascii "secret") 16 (by decide)⟩

/-- C10 (the error of an invalid id), evaluated on the code: an identifier
minted under `secret` and validated under `wrong` decodes to 64 bytes and is
rejected with `InvalidSessionID`, but the error returned is the value made by
`fmt.Errorf("invalid id, 400: %v", ErrInvalidID)`: it is not `ErrInvalidID`,
`errors.Is` does not find `ErrInvalidID` in it, and its message differs. -/
theorem C10_error_is_not_ErrInvalidID :
    ValidateID (NewSessionID (ascii "secret") exampleReader).1.1 (ascii "wrong")
        = Outcome.ret InvalidSessionID (some GoError.invalidID400) ∧
      GoError.invalidID400 ≠ ErrInvalidID ∧
      errorsIs GoError.invalidID400 ErrInvalidID = false ∧
      GoError.invalidID400.Error ≠ ErrInvalidID.Error := by
  refine ⟨?_, by decide, by decide, by decide⟩
  rw [ValidateID_NewSessionID _ _ _ (by decide), if_neg tag_wrong_ne_secret]

/-! ## Further facts about `NewSessionID` and `ValidateID` -/

theorem NewSessionID_error_iff (k : List Byte) (rd : RandReader) :
    (NewSessionID k rd).1.2 ≠ none ↔ k = [] := by
  constructor
  · intro h
    by_cases hk : k = []
    · exact hk
    · rw [NewSessionID_of_key k rd hk] at h
      exact absurd rfl h
  · intro hk
    subst hk
    intro h
    cases h

theorem makeCryptoID_buffer (rd : RandReader) :
    (makeCryptoID rd).1 = (rd.outcome rd.calls).data.take 32
      ++ List.replicate (32 - (rd.outcome rd.calls).data.length) 0 := by
  simp only [makeCryptoID, RandReader.Read, idLength, List.length_replicate, List.drop_replicate]
  congr 1
  · rw [List.take_eq_take]
    omega
  · congr 1
    omega

theorem ValidateID_accepted (id k : List Byte) (sid : SessionID)
    (h : ValidateID id k = Outcome.ret sid none) :
    sid = id ∧ (DecodeString id).2 = none ∧ (DecodeString id).1.data.length = 64 := by
  rcases hdec : DecodeString id with ⟨⟨d, sp⟩, e⟩
  cases e with
  | some off =>
    rw [ValidateID_of_decode_error id k _ off hdec] at h
    cases h
  | none =>
    by_cases hlen : 32 ≤ d.length
    · rw [ValidateID_of_decoded id k d sp hdec hlen] at h
      by_cases hc : hmacSha256 k (d.take 32) = d.drop 32
      · rw [if_pos hc] at h
        have hs : id = sid := by cases h; rfl
        have h32 := congrArg List.length hc
        rw [hmacSha256_length, List.length_drop] at h32
        refine ⟨hs.symm, rfl, ?_⟩
        show d.length = 64
        omega
      · rw [if_neg hc] at h
        cases h
    · rw [ValidateID_of_short id k d sp hdec (by omega)] at h
      cases h

theorem ValidateID_rejected (id k : List Byte) (sid : SessionID) (e : GoError)
    (h : ValidateID id k = Outcome.ret sid (some e)) : sid = InvalidSessionID := by
  rcases hdec : DecodeString id with ⟨⟨d, sp⟩, e2⟩
  cases e2 with
  | some off =>
    rw [ValidateID_of_decode_error id k _ off hdec] at h
    cases h
    rfl
  | none =>
    by_cases hlen : 32 ≤ d.length
    · rw [ValidateID_of_decoded id k d sp hdec hlen] at h
      by_cases hc : hmacSha256 k (d.take 32) = d.drop 32
      · rw [if_pos hc] at h
        cases h
      · rw [if_neg hc] at h
        cases h
        rfl
    · rw [ValidateID_of_short id k d sp hdec (by omega)] at h
      cases h

/-! ## Flipping a bit of the tag -/

theorem flip_byte_ne (x : Byte) (b : Nat) (hb : b < 8) :
    (Fin.ofNat (x.val ^^^ 1 <<< b) : Byte) ≠ x := by
  intro h
  have hx := x.isLt
  have hp : 1 <<< b < 2 ^ 8 := by
    rw [Nat.shiftLeft_eq, Nat.one_mul]
    exact Nat.pow_lt_pow_right (by norm_num) hb
  have hlt : x.val ^^^ 1 <<< b < 2 ^ 8 := Nat.xor_lt_two_pow (by omega) hp
  have hv : (x.val ^^^ 1 <<< b) % 256 = x.val := congrArg Fin.val h
  rw [Nat.mod_eq_of_lt (by omega)] at hv
  have hz : 1 <<< b = 0 := by
    have := Nat.xor_cancel_left x.val (1 <<< b)
    rw [hv, Nat.xor_self] at this
    exact this.symm
  rw [Nat.shiftLeft_eq, Nat.one_mul] at hz
  exact absurd hz (by positivity)

theorem set_ne_self (l : List Byte) (j : Nat) (v : Byte) (hj : j < l.length)
    (hv : v ≠ l.getD j 0) : l.set j v ≠ l := by
  intro h
  have h1 : (l.set j v).getD j 0 = v := by
    rw [List.getD_eq_getElem?_getD, List.getElem?_set_self hj]
    rfl
  rw [h] at h1
  exact hv h1.symm

theorem flipBit_tag (r tag : List Byte) (i b : Nat) (hr : r.length = 32) (hi : 32 ≤ i) :
    flipBit (r ++ tag) i b = r ++ flipBit tag (i - 32) b := by
  unfold flipBit
  rw [List.set_append_right _ _ (by omega), hr]
  congr 3
  rw [List.getD_eq_getElem?_getD, List.getD_eq_getElem?_getD,
    List.getElem?_append_right (by omega), hr]

theorem flipBit_ne (tag : List Byte) (j b : Nat) (hj : j < tag.length) (hb : b < 8) :
    flipBit tag j b ≠ tag :=
  set_ne_self tag j _ hj (flip_byte_ne _ b hb)

theorem ValidateID_flipped_tag (k r : List Byte) (i b : Nat) (hr : r.length = 32)
    (hi : 32 ≤ i) (hi2 : i < 64) (hb : b < 8) :
    ValidateID (EncodeToString (flipBit (r ++ hmacSha256 k r) i b)) k
      = Outcome.ret InvalidSessionID (some GoError.invalidID400) := by
  rw [flipBit_tag r _ i b hr hi,
    ValidateID_encoded _ _ (by rw [List.length_append]; omega), List.take_left' hr,
    List.drop_left' hr, if_neg]
  exact fun h => flipBit_ne (hmacSha256 k r) (i - 32) b
    (by rw [hmacSha256_length]; omega) hb h.symm

/-! ## `ValidateID` in a state of the program -/

theorem ValidateIDIn_outcome (w : World) (id k : List Byte) :
    Returned.outcome (ValidateIDIn w id k).1 = ValidateID id k := by
  unfold ValidateIDIn ValidateID
  split
  · rfl
  · simp only []
    split
    · rfl
    · split
      · rfl
      · split <;> rfl

theorem ValidateIDIn_state (w : World) (id k : List Byte) : (ValidateIDIn w id k).2 = w := by
  unfold ValidateIDIn
  split
  · rfl
  · simp only []
    split
    · rfl
    · split
      · rfl
      · split <;> rfl

theorem ValidateIDIn_result (rd1 rd2 : RandReader) (v : Option String) (id k : List Byte) :
    (ValidateIDIn ⟨rd1, v⟩ id k).1 = (ValidateIDIn ⟨rd2, v⟩ id k).1 := by
  unfold ValidateIDIn
  split
  · rfl
  · simp only []
    split
    · rfl
    · split
      · rfl
      · split <;> rfl

theorem ValidateIDIn_initial_text (rd : RandReader) (id k : List Byte) (e : ErrorValue)
    (sid : SessionID) (h : (ValidateIDIn (World.initial rd) id k).1 = Returned.ret sid (some e)) :
    e.text = e.site.Error := by
  unfold ValidateIDIn at h
  split at h
  · cases h; rfl
  · simp only [] at h
    split at h
    · cases h
    · split at h
      · cases h
      · split at h
        · cases h
        · cases h
          simp only [World.initial, ErrInvalidID, GoError.Error, Option.getD_some]
          decide

/-! ## The claims, continued -/

/-- C11, as stated, fails: on the empty signing key `NewSessionID` returns a
non-nil error although the random source reports no failure (it is not even
called). -/
theorem C11_error_without_rand_failure :
    (NewSessionID (ascii "") exampleReader).1.2 = some GoError.noSigningKey ∧
      (exampleReader.outcome exampleReader.calls).failed = false ∧
      (NewSessionID (ascii "") exampleReader).2.calls = exampleReader.calls :=
  ⟨rfl, rfl, rfl⟩

/-- C11 (when `NewSessionID` returns an error), amended: if `NewSessionID`
returns a non-nil error then the signing key is empty or the random source
reported a failure; so with a non-empty key and a random source that succeeds
no error is returned. -/
theorem C11_error_only_if (k : List Byte) (rd : RandReader)
    (h : (NewSessionID k rd).1.2 ≠ none) :
    k = [] ∨ (rd.outcome rd.calls).failed = true :=
  Or.inl ((NewSessionID_error_iff k rd).mp h)

/-- Witness of the amended C11: the empty key and the sample random source. -/
theorem C11_error_only_if_witness :
    (NewSessionID (ascii "") exampleReader).1.2 ≠ none ∧
      (ascii "" = [] ∨ (exampleReader.outcome exampleReader.calls).failed = true) :=
  ⟨by decide, C11_error_only_if (ascii "") exampleReader (by decide)⟩

/-- C12 (determinism of validation): in any two states of the program
(random source and package variable `ErrInvalidID`), two calls of
`ValidateID` on the same candidate and signing key end the same way, with the
same identifier and the same success or failure, which are the function
`ValidateID` of the two arguments alone; in one state of the variable the
whole result, text of the error included, is the same whatever the random
source; and the call leaves the state as it found it. -/
theorem C12_validate_deterministic (w1 w2 : World) (id k : List Byte) :
    Returned.outcome (ValidateIDIn w1 id k).1 = Returned.outcome (ValidateIDIn w2 id k).1 ∧
      Returned.outcome (ValidateIDIn w1 id k).1 = ValidateID id k ∧
      (ValidateIDIn ⟨w1.rand, w2.ErrInvalidID⟩ id k).1 = (ValidateIDIn w2 id k).1 ∧
      (ValidateIDIn w1 id k).2 = w1 :=
  ⟨by rw [ValidateIDIn_outcome, ValidateIDIn_outcome], ValidateIDIn_outcome w1 id k,
    ValidateIDIn_result w1.rand w2.rand w2.ErrInvalidID id k, ValidateIDIn_state w1 id k⟩

/-- C13 (tamper detection on the tag half): for a non-empty key, an
identifier minted under it, a byte `i` among bytes 32..63 of its decoded
buffer and a bit `b` of that byte, flipping the bit, encoding again and
validating under the same key returns `InvalidSessionID` with the
`invalid id, 400` error. -/
theorem C13_tag_bit_flip_rejected (k : List Byte) (rd : RandReader) (sid : SessionID)
    (i b : Nat) (hk : k ≠ []) (h : (NewSessionID k rd).1 = (sid, none)) (hi : 32 ≤ i)
    (hi2 : i < 64) (hb : b < 8) :
    ValidateID (EncodeToString (flipBit (DecodeString (SessionID.String sid)).1.data i b)) k
      = Outcome.ret InvalidSessionID (some GoError.invalidID400) := by
  rw [NewSessionID_of_key k rd hk] at h
  have hs : EncodeToString ((makeCryptoID rd).1 ++ hmacSha256 k (makeCryptoID rd).1) = sid :=
    congrArg Prod.fst h
  subst hs
  rw [SessionID.String, DecodeString_EncodeToString]
  exact ValidateID_flipped_tag k _ i b (makeCryptoID_length rd) hi hi2 hb

/-- Witness of C13: bit 3 of byte 40 of an identifier minted under `secret`. -/
theorem C13_tag_bit_flip_rejected_witness :
    ascii "secret" ≠ [] ∧ 32 ≤ 40 ∧ 40 < 64 ∧ 3 < 8 ∧
      ValidateID (EncodeToString (flipBit (DecodeString
          (SessionID.String (NewSessionID (ascii "secret") exampleReader).1.1)).1.data 40 3))
          (ascii "secret")
        = Outcome.ret InvalidSessionID (some GoError.invalidID400) :=
  ⟨by decide, by decide, by decide, by decide,
    C13_tag_bit_flip_rejected (ascii "secret") exampleReader _ 40 3 (by decide) rfl
      (by decide) (by decide) (by decide)⟩

/-- C14 (the sentinel separates success from failure): whenever `ValidateID`
returns, the identifier returned is `InvalidSessionID` exactly when the error
returned is non-nil; an accepted candidate is never the empty string. -/
theorem C14_sentinel_iff_error (id k : List Byte) (sid : SessionID) (err : Option GoError)
    (h : ValidateID id k = Outcome.ret sid err) :
    sid = InvalidSessionID ↔ err ≠ none := by
  cases err with
  | none =>
    have hacc := ValidateID_accepted id k sid h
    constructor
    · intro hs
      have hid : id = [] := by rw [← hacc.1, hs]; rfl
      have hlen := hacc.2.2
      rw [hid] at hlen
      exact absurd hlen (by decide)
    · intro hne
      exact absurd rfl hne
  | some e =>
    exact ⟨fun _ hne => Option.noConfusion hne, fun _ => ValidateID_rejected id k sid e h⟩

/-- Witness of C14: an identifier minted under `secret` and validated under
`secret` is returned with a nil error and is not the sentinel. -/
theorem C14_sentinel_iff_error_witness :
    ValidateID (NewSessionID (ascii "secret") exampleReader).1.1 (ascii "secret")
        = Outcome.ret (NewSessionID (ascii "secret") exampleReader).1.1 none ∧
      ((NewSessionID (ascii "secret") exampleReader).1.1 = InvalidSessionID ↔
        (none : Option GoError) ≠ none) :=
  ⟨by rw [ValidateID_NewSessionID (ascii "secret") _ exampleReader (by decide), if_pos rfl],
    C14_sentinel_iff_error (NewSessionID (ascii "secret") exampleReader).1.1 (ascii "secret")
      (NewSessionID (ascii "secret") exampleReader).1.1 none
      (by rw [ValidateID_NewSessionID (ascii "secret") _ exampleReader (by decide), if_pos rfl])⟩

/-- C15 (`NewSessionID` fails only on the empty key): for a non-empty signing
key and any behaviour of the random source, a reported error or a partly
filled buffer included, `NewSessionID` returns a nil error and an identifier
other than `InvalidSessionID`: the encoding of the 32-byte buffer as `Read`
left it (the bytes written, then zeros) followed by its tag. -/
theorem C15_fails_only_on_empty_key (k : List Byte) (rd : RandReader) (hk : k ≠ []) :
    (NewSessionID k rd).1.2 = none ∧ (NewSessionID k rd).1.1 ≠ InvalidSessionID ∧
      (NewSessionID k rd).1.1
        = EncodeToString
            (((rd.outcome rd.calls).data.take 32
                ++ List.replicate (32 - (rd.outcome rd.calls).data.length) 0)
              ++ hmacSha256 k ((rd.outcome rd.calls).data.take 32
                ++ List.replicate (32 - (rd.outcome rd.calls).data.length) 0)) := by
  refine ⟨?_, NewSessionID_ne_invalid k rd hk, ?_⟩
  · rw [NewSessionID_of_key k rd hk]
  · rw [NewSessionID_of_key k rd hk, makeCryptoID_buffer]

/-- Witness of C15: the key `k` and a random source that writes three bytes
and reports an error. -/
theorem C15_fails_only_on_empty_key_witness :
    ascii "k" ≠ [] ∧ (partialReader.outcome partialReader.calls).failed = true ∧
      (NewSessionID (ascii "k") partialReader).1.2 = none ∧
      (NewSessionID (ascii "k") partialReader).1.1 ≠ InvalidSessionID ∧
      (NewSessionID (ascii "k") partialReader).1.1
        = EncodeToString
            (((partialReader.outcome partialReader.calls).data.take 32
                ++ List.replicate (32 - (partialReader.outcome partialReader.calls).data.length) 0)
              ++ hmacSha256 (ascii "k") ((partialReader.outcome partialReader.calls).data.take 32
                ++ List.replicate
                  (32 - (partialReader.outcome partialReader.calls).data.length) 0)) :=
  ⟨by decide, rfl, C15_fails_only_on_empty_key (ascii "k") partialReader (by decide)⟩

/-- C16 (no constraint on the key in `ValidateID`): for every 32-byte buffer
`b`, the base64 URL encoding of `b ++ HMAC-SHA256("", b)` is accepted by
`ValidateID` under the empty signing key, which returns that string and a nil
error, while `NewSessionID` under the empty key returns `InvalidSessionID`
and an error. -/
theorem C16_empty_key_validates (b : List Byte) (hb : b.length = 32) :
    ValidateID (EncodeToString (b ++ hmacSha256 (ascii "") b)) (ascii "")
        = Outcome.ret (EncodeToString (b ++ hmacSha256 (ascii "") b)) none ∧
      ∀ rd, (NewSessionID (ascii "") rd).1 = (InvalidSessionID, some GoError.noSigningKey) := by
  refine ⟨?_, fun _ => rfl⟩
  rw [ValidateID_encoded _ _ (by rw [List.length_append]; omega), List.take_left' hb,
    List.drop_left' hb, if_pos rfl]

/-- Witness of C16: the buffer of 32 zero bytes. -/
theorem C16_empty_key_validates_witness :
    (List.replicate 32 (0 : Byte)).length = 32 ∧
      (ValidateID (EncodeToString (List.replicate 32 0 ++ hmacSha256 (ascii "")
            (List.replicate 32 0))) (ascii "")
          = Outcome.ret (EncodeToString (List.replicate 32 0 ++ hmacSha256 (ascii "")
              (List.replicate 32 0))) none ∧
        ∀ rd, (NewSessionID (ascii "") rd).1
          = (InvalidSessionID, some GoError.noSigningKey)) :=
  ⟨by decide, C16_empty_key_validates (List.replicate 32 0) (by decide)⟩

end Sessions
